import Mathlib

/-!
Verification of the client orchestration layer of `wizwalker` (`src/wizwalker/client.py`).

The `Client` class drives an external application by writing remote state through a
hook subsystem and by injecting window messages.  We embed each method as a function
producing the list of observable low-level operations (remote writes, window messages,
sleeps), with the external collaborators (the OS `ClientToScreen` primitive, the
hook subsystem, `utils.get_pid_from_handle`) supplied as oracle parameters.
Python `float` durations are embedded as `ℚ` where the code only compares them with
zero, and as `ℝ` where Euclidean geometry is involved (`goto`).
-/

namespace Client

/-- Delivery primitive for a window message: `user32.SendMessageW` is the blocking /
acknowledged primitive, `user32.PostMessageW` the fire-and-forget one. -/
inductive Delivery
  | sendMessageW
  | postMessageW
deriving DecidableEq

/-- Observable operations of the input-injection methods (`set_mouse_position`,
`click`): the hook-subsystem mouse-position write, a window message
(delivery primitive, message code, wparam, lparam), and an `asyncio.sleep`. -/
inductive IEvent
  | write_mouse_position (x y : Int)
  | winMessage (d : Delivery) (msg : Nat) (wparam lparam : Nat)
  | asyncSleep (seconds : ℚ)
deriving DecidableEq

/-- `send_method = user32.PostMessageW if use_post else user32.SendMessageW`
(lines 156-159 and 192-195 of client.py). -/
def send_method (use_post : Bool) : Delivery :=
  if use_post then Delivery.postMessageW else Delivery.sendMessageW

/-- The distinct error raised by `set_mouse_position` when the OS
`ClientToScreen` call reports failure (`RuntimeError("Client to screen conversion
failed")`, client.py line 202). -/
inductive MouseError
  | clientToScreenFailed
deriving DecidableEq

/-- `Client.set_mouse_position` (client.py lines 174-213).  The OS primitive
`user32.ClientToScreen` is the oracle `clientToScreen`: `none` models a zero
return value (failure), `some (sx, sy)` models success overwriting the point.
On the conversion-failure path the method raises before any write or message;
otherwise it writes the mouse position via the hook subsystem and then sends a
zero-payload mouse-move message `0x200`. -/
def set_mouse_position (clientToScreen : Int × Int → Option (Int × Int))
    (x y : Int) (convert_from_client : Bool) (use_post : Bool) :
    List IEvent × Option MouseError :=
  if convert_from_client then
    match clientToScreen (x, y) with
    | none => ([], some MouseError.clientToScreenFailed)
    | some (sx, sy) =>
        ([IEvent.write_mouse_position sx sy,
          IEvent.winMessage (send_method use_post) 0x200 0 0], none)
  else
    ([IEvent.write_mouse_position x y,
      IEvent.winMessage (send_method use_post) 0x200 0 0], none)

/-- `button_down_message = 0x204 if right_click else 0x201` (client.py lines 151-154). -/
def button_down_message (right_click : Bool) : Nat :=
  if right_click then 0x204 else 0x201

/-- The body of `Client.click` (client.py lines 130-172), as the sequence of
operations it performs: `set_mouse_position(x, y)` called with its default
arguments, the button-down message with wparam 1, an optional sleep when
`sleep_duration > 0`, and the button-up message (code `button_down_message + 1`)
with wparam 0.  A failure raised by `set_mouse_position` propagates, in which
case no button message is sent.  (The click-lock discipline around this body is
modelled separately below.) -/
def click (clientToScreen : Int × Int → Option (Int × Int)) (x y : Int)
    (right_click : Bool) (sleep_duration : ℚ) (use_post : Bool) :
    List IEvent × Option MouseError :=
  match set_mouse_position clientToScreen x y true false with
  | (evs, some err) => (evs, some err)
  | (evs, none) =>
      (evs ++ [IEvent.winMessage (send_method use_post) (button_down_message right_click) 1 0]
           ++ (if 0 < sleep_duration then [IEvent.asyncSleep sleep_duration] else [])
           ++ [IEvent.winMessage (send_method use_post) (button_down_message right_click + 1) 0 0],
       none)

/-- Number of `asyncio.sleep` operations in a trace. -/
def countSleeps : List IEvent → Nat
  | [] => 0
  | IEvent.asyncSleep _ :: rest => countSleeps rest + 1
  | _ :: rest => countSleeps rest

/-- C7: if the OS client-to-screen conversion fails, `set_mouse_position`
fails with the distinct conversion error and issues no mouse-position write
and no window message at all. -/
theorem set_mouse_position_conversion_failure
    (clientToScreen : Int × Int → Option (Int × Int)) (x y : Int) (use_post : Bool)
    (h : clientToScreen (x, y) = none) :
    set_mouse_position clientToScreen x y true use_post
      = ([], some MouseError.clientToScreenFailed) := by
  simp [set_mouse_position, h]

theorem set_mouse_position_conversion_failure_witness :
    set_mouse_position (fun _ => none) 3 4 true false
      = ([], some MouseError.clientToScreenFailed) :=
  set_mouse_position_conversion_failure (fun _ => none) 3 4 false rfl

/-- C5: a `click` whose mouse-position step succeeds performs, in order: the
mouse-position set (write then mouse-move message), the button-down message,
an optional sleep, and the button-up message whose code is the button-down
code plus 1; moreover the right-click button-down code is the left-click
button-down code plus 3. -/
theorem click_sequence (clientToScreen : Int × Int → Option (Int × Int))
    (x y sx sy : Int) (right_click : Bool) (sleep_duration : ℚ) (use_post : Bool)
    (h : clientToScreen (x, y) = some (sx, sy)) :
    click clientToScreen x y right_click sleep_duration use_post
      = ([IEvent.write_mouse_position sx sy,
          IEvent.winMessage Delivery.sendMessageW 0x200 0 0,
          IEvent.winMessage (send_method use_post) (button_down_message right_click) 1 0]
          ++ (if 0 < sleep_duration then [IEvent.asyncSleep sleep_duration] else [])
          ++ [IEvent.winMessage (send_method use_post) (button_down_message right_click + 1) 0 0],
         none)
    ∧ button_down_message true = button_down_message false + 3 := by
  constructor
  · simp [click, set_mouse_position, h, send_method]
  · rfl

theorem click_sequence_witness :
    click (fun p => some (p.1 + 100, p.2 + 200)) 1 2 false 0 false
      = ([IEvent.write_mouse_position 101 202,
          IEvent.winMessage Delivery.sendMessageW 0x200 0 0,
          IEvent.winMessage (send_method false) (button_down_message false) 1 0]
          ++ ((if (0 : ℚ) < 0 then [IEvent.asyncSleep 0] else []) : List IEvent)
          ++ [IEvent.winMessage (send_method false) (button_down_message false + 1) 0 0],
         none)
    ∧ button_down_message true = button_down_message false + 3 :=
  click_sequence (fun p => some (p.1 + 100, p.2 + 200)) 1 2 101 202 false 0 false rfl

/-- C9: `use_post` only selects the delivery primitive of the button-down and
button-up messages.  The mouse-position stage of `click` (the first two events)
is exactly `set_mouse_position` called with its defaults — conversion enabled
and the blocking `SendMessageW` delivery — whatever `use_post` was, while the
button messages use the delivery selected by `use_post`. -/
theorem click_use_post_scope (clientToScreen : Int × Int → Option (Int × Int))
    (x y sx sy : Int) (right_click : Bool) (sleep_duration : ℚ) (use_post : Bool)
    (h : clientToScreen (x, y) = some (sx, sy)) :
    (click clientToScreen x y right_click sleep_duration use_post).1.take 2
      = (set_mouse_position clientToScreen x y true false).1
    ∧ (set_mouse_position clientToScreen x y true false).1
      = [IEvent.write_mouse_position sx sy,
         IEvent.winMessage Delivery.sendMessageW 0x200 0 0]
    ∧ (click clientToScreen x y right_click sleep_duration use_post).1.drop 2
      = [IEvent.winMessage (send_method use_post) (button_down_message right_click) 1 0]
        ++ (if 0 < sleep_duration then [IEvent.asyncSleep sleep_duration] else [])
        ++ [IEvent.winMessage (send_method use_post) (button_down_message right_click + 1) 0 0] := by
  refine ⟨?_, ?_, ?_⟩ <;>
    simp [click, set_mouse_position, h, send_method]

theorem click_use_post_scope_witness :
    (click (fun p => some (p.1 + 100, p.2 + 200)) 5 6 true 0 true).1.take 2
      = (set_mouse_position (fun p => some (p.1 + 100, p.2 + 200)) 5 6 true false).1 :=
  (click_use_post_scope (fun p => some (p.1 + 100, p.2 + 200)) 5 6 105 206 true 0 true (by decide)).1

/-- C10: `click` suspends between the button-down and button-up messages
exactly when `sleep_duration > 0`: for `sleep_duration ≤ 0` (including the
default 0 and negative values) no sleep happens and down is immediately
followed by up; for `sleep_duration > 0` exactly one sleep of exactly
`sleep_duration` sits between down and up. -/
theorem click_sleep_condition (clientToScreen : Int × Int → Option (Int × Int))
    (x y sx sy : Int) (right_click : Bool) (use_post : Bool) (sleep_duration : ℚ)
    (h : clientToScreen (x, y) = some (sx, sy)) :
    countSleeps (click clientToScreen x y right_click sleep_duration use_post).1
      = (if 0 < sleep_duration then 1 else 0)
    ∧ (sleep_duration ≤ 0 →
        (click clientToScreen x y right_click sleep_duration use_post).1
          = [IEvent.write_mouse_position sx sy,
             IEvent.winMessage Delivery.sendMessageW 0x200 0 0,
             IEvent.winMessage (send_method use_post) (button_down_message right_click) 1 0,
             IEvent.winMessage (send_method use_post) (button_down_message right_click + 1) 0 0])
    ∧ (0 < sleep_duration →
        (click clientToScreen x y right_click sleep_duration use_post).1
          = [IEvent.write_mouse_position sx sy,
             IEvent.winMessage Delivery.sendMessageW 0x200 0 0,
             IEvent.winMessage (send_method use_post) (button_down_message right_click) 1 0,
             IEvent.asyncSleep sleep_duration,
             IEvent.winMessage (send_method use_post) (button_down_message right_click + 1) 0 0]) := by
  refine ⟨?_, ?_, ?_⟩
  · rcases lt_or_le 0 sleep_duration with hd | hd
    · simp [click, set_mouse_position, h, hd, countSleeps]
    · simp [click, set_mouse_position, h, not_lt.mpr hd, countSleeps]
  · intro hd
    simp [click, set_mouse_position, h, not_lt.mpr hd, send_method]
  · intro hd
    simp [click, set_mouse_position, h, hd, send_method]

theorem click_sleep_condition_witness :
    (click (fun p => some (p.1 + 100, p.2 + 200)) 7 8 false (-1) false).1
      = [IEvent.write_mouse_position 107 208,
         IEvent.winMessage Delivery.sendMessageW 0x200 0 0,
         IEvent.winMessage (send_method false) (button_down_message false) 1 0,
         IEvent.winMessage (send_method false) (button_down_message false + 1) 0 0] :=
  (click_sleep_condition (fun p => some (p.1 + 100, p.2 + 200)) 7 8 107 208
    false false (-1) (by decide)).2.1 (by norm_num)

/-- Modelled from the spec: `DuelPhase` (imported from the `memory` module, not in
src/) is "an enumeration with at least a terminal ended variant and one or more
non-terminal variants". -/
inductive DuelPhase
  | planning
  | executing
  | ended
deriving DecidableEq

/-- Failures a remote duel-phase read can surface: `ReadingEnumFailed` (the
distinguished enum-decode failure imported by client.py) and any other
hook-subsystem failure. -/
inductive HookError
  | readingEnumFailed
  | otherHookError
deriving DecidableEq

/-- `Client.in_battle` (client.py lines 100-109), as a function of the outcome of
`self.duel.duel_phase()`: `except ReadingEnumFailed: return False`; any other
failure propagates; on success it returns `duel_phase is not DuelPhase.ended`. -/
def in_battle : Except HookError DuelPhase → Except HookError Bool
  | Except.error HookError.readingEnumFailed => Except.ok false
  | Except.error e => Except.error e
  | Except.ok duel_phase => Except.ok (decide (duel_phase ≠ DuelPhase.ended))

/-- C4: `in_battle` returns false (and does not raise) when the duel-phase read
fails with the enum-decode failure; when the read succeeds it returns true
exactly for a non-ended phase and false exactly for the ended phase; any other
read failure propagates unchanged. -/
theorem in_battle_spec :
    in_battle (Except.error HookError.readingEnumFailed) = Except.ok false
    ∧ (∀ p, in_battle (Except.ok p) = Except.ok true ↔ p ≠ DuelPhase.ended)
    ∧ (∀ p, in_battle (Except.ok p) = Except.ok false ↔ p = DuelPhase.ended)
    ∧ in_battle (Except.error HookError.otherHookError)
        = Except.error HookError.otherHookError := by
  refine ⟨rfl, ?_, ?_, rfl⟩ <;> intro p <;> cases p <;> simp [in_battle]

/-- Process-level state of a client used by `close`: whether the attached process
is still running, and how many times the hook subsystem's `close` has been
invoked over the handle's lifetime. -/
structure ClientProc where
  running : Bool
  hook_close_calls : Nat
deriving DecidableEq

/-- `Client.is_running` (client.py lines 43-44): whether the attached process
handle still refers to a live process. -/
def is_running (s : ClientProc) : Bool := s.running

/-- `Client.close` (client.py lines 46-54): returns immediately when the process
is not running, otherwise calls `self.hook_handler.close()` (counted here).
Unhooking does not terminate the target process, so `running` is unchanged. -/
def close (s : ClientProc) : ClientProc :=
  if is_running s then { s with hook_close_calls := s.hook_close_calls + 1 } else s

/-- C3 counterexample: on a client whose process is still running, the second of
two consecutive `close()` calls performs another hook-subsystem close call
(the counter goes 0 → 1 → 2), so the hook resources are not released exactly
once and the second call is not free of hook-subsystem calls. -/
theorem close_twice_counterexample :
    is_running { running := true, hook_close_calls := 0 } = true
    ∧ (close { running := true, hook_close_calls := 0 }).hook_close_calls = 1
    ∧ (close (close { running := true, hook_close_calls := 0 })).hook_close_calls = 2 := by
  refine ⟨rfl, rfl, rfl⟩

/-- C3 amended: `close()` when `is_running()` is false performs no hook-subsystem
calls and raises no error; while the process is still running, every `close()`
call — including a repeated one — performs exactly one hook-subsystem close
call, so double-close idempotence rests on the hook subsystem, not the client. -/
theorem close_idempotence_amended (s : ClientProc) :
    (close s).running = s.running
    ∧ (close s).hook_close_calls
        = s.hook_close_calls + (if is_running s then 1 else 0)
    ∧ (close (close s)).hook_close_calls
        = s.hook_close_calls + (if is_running s then 2 else 0) := by
  rcases s with ⟨r, n⟩
  cases r <;> simp [close, is_running]

/-- 3-D point type `utils.XYZ`.  The `utils` module is not in src/; modelled from
the spec: "three floating-point coordinates (x, y, z). Immutable value type." -/
structure XYZ where
  x : ℝ
  y : ℝ
  z : ℝ

/-- Modelled from the spec: `XYZ` subtraction (`utils` module, not in src/)
"yields a scalar distance (Euclidean norm), not a vector". -/
noncomputable def XYZ.sub (a b : XYZ) : ℝ :=
  Real.sqrt ((a.x - b.x) ^ 2 + (a.y - b.y) ^ 2 + (a.z - b.z) ^ 2)

/-- Observable operations of the remote-body methods `goto` and `teleport`: the
position read, the position and yaw writes, and a timed key hold
(`utils.timed_send_key`). -/
inductive BodyEvent
  | position_read
  | write_position (pos : XYZ)
  | write_yaw (yaw : ℝ)
  | timed_send_key (keycode : Nat) (seconds : ℝ)

/-- `Keycode.W`, the "forward" key held by `goto` (keycode table not in src/;
the Windows virtual-key code for W). -/
def keycodeW : Nat := 0x57

def countPositionReads : List BodyEvent → Nat
  | [] => 0
  | BodyEvent.position_read :: rest => countPositionReads rest + 1
  | _ :: rest => countPositionReads rest

def countPositionWrites : List BodyEvent → Nat
  | [] => 0
  | BodyEvent.write_position _ :: rest => countPositionWrites rest + 1
  | _ :: rest => countPositionWrites rest

def countYawWrites : List BodyEvent → Nat
  | [] => 0
  | BodyEvent.write_yaw _ :: rest => countYawWrites rest + 1
  | _ :: rest => countYawWrites rest

def countKeyHolds : List BodyEvent → Nat
  | [] => 0
  | BodyEvent.timed_send_key _ _ :: rest => countKeyHolds rest + 1
  | _ :: rest => countKeyHolds rest

/-- `Client.teleport` (client.py lines 235-249): writes the position, then writes
the yaw only when one was provided. -/
def teleport (xyz : XYZ) (yaw : Option ℝ) : List BodyEvent :=
  [BodyEvent.write_position xyz] ++
    (match yaw with
     | none => []
     | some v => [BodyEvent.write_yaw v])

/-- C6: `teleport(xyz, yaw=None)` issues exactly one position write (of exactly
`xyz`) and zero yaw writes; `teleport(xyz, yaw=Y)` issues exactly one position
write followed by exactly one yaw write (of exactly `Y`), in that order; neither
form injects any input (no key hold) and no value is altered. -/
theorem teleport_spec (xyz : XYZ) :
    teleport xyz none = [BodyEvent.write_position xyz]
    ∧ (∀ v, teleport xyz (some v)
        = [BodyEvent.write_position xyz, BodyEvent.write_yaw v])
    ∧ countPositionWrites (teleport xyz none) = 1
    ∧ countYawWrites (teleport xyz none) = 0
    ∧ (∀ v, countPositionWrites (teleport xyz (some v)) = 1)
    ∧ (∀ v, countYawWrites (teleport xyz (some v)) = 1)
    ∧ (∀ yw, countKeyHolds (teleport xyz yw) = 0) := by
  refine ⟨rfl, fun v => rfl, rfl, rfl, fun v => rfl, fun v => rfl, ?_⟩
  intro yw
  cases yw <;> rfl

/-- `Client.goto` (client.py lines 215-233): reads the current position, builds
the target at `(x, y, current z)`, computes
`move_seconds = (current - target) / (WIZARD_SPEED * speed_multiplier)`
(`XYZ` subtraction being the Euclidean distance) and the perfect yaw, then writes
the yaw and holds the forward key for `move_seconds`.  `WIZARD_SPEED`
(constants module) and `utils.calculate_perfect_yaw` are not in src/ and are
oracle parameters. -/
noncomputable def goto (calculate_perfect_yaw : XYZ → XYZ → ℝ) (WIZARD_SPEED : ℝ)
    (current_xyz : XYZ) (x y : ℝ) (speed_multiplier : ℝ) : List BodyEvent :=
  let target_xyz : XYZ := ⟨x, y, current_xyz.z⟩
  let distance := XYZ.sub current_xyz target_xyz
  let move_seconds := distance / (WIZARD_SPEED * speed_multiplier)
  let yaw := calculate_perfect_yaw current_xyz target_xyz
  [BodyEvent.position_read, BodyEvent.write_yaw yaw,
   BodyEvent.timed_send_key keycodeW move_seconds]

/-- C2: `goto` reads the current position once, targets `(x, y, current z)`,
issues exactly one yaw write (of the yaw from the current position to the
target) and exactly one forward-key hold whose duration is the Euclidean
distance divided by `WIZARD_SPEED * speed_multiplier`; in particular from
`(0,0,0)` to `(10, 0, ·)` the duration is `10 / (WIZARD_SPEED * multiplier)`. -/
theorem goto_spec (fn : XYZ → XYZ → ℝ) (S : ℝ) (P : XYZ) (x y m : ℝ) :
    goto fn S P x y m
      = [BodyEvent.position_read,
         BodyEvent.write_yaw (fn P ⟨x, y, P.z⟩),
         BodyEvent.timed_send_key keycodeW (XYZ.sub P ⟨x, y, P.z⟩ / (S * m))]
    ∧ countPositionReads (goto fn S P x y m) = 1
    ∧ countYawWrites (goto fn S P x y m) = 1
    ∧ countKeyHolds (goto fn S P x y m) = 1
    ∧ (∀ fn2 S2 m2, goto fn2 S2 ⟨0, 0, 0⟩ 10 0 m2
        = [BodyEvent.position_read,
           BodyEvent.write_yaw (fn2 ⟨0, 0, 0⟩ ⟨10, 0, 0⟩),
           BodyEvent.timed_send_key keycodeW (10 / (S2 * m2))]) := by
  refine ⟨rfl, rfl, rfl, rfl, ?_⟩
  intro fn2 S2 m2
  have hsub : XYZ.sub ⟨0, 0, 0⟩ ⟨10, 0, 0⟩ = 10 := by
    unfold XYZ.sub
    rw [show ((0 : ℝ) - 10) ^ 2 + ((0 : ℝ) - 0) ^ 2 + ((0 : ℝ) - 0) ^ 2
          = 10 ^ 2 by ring]
    exact Real.sqrt_sq (by norm_num)
  simp only [goto, hsub]

/-- A remote-state accessor instance (`PlayerStats(self.hook_handler)` and the
like): it references the owning handle's hook handler, and `instance_id` models
Python object identity (each construction yields a fresh object). -/
structure Accessor where
  hook_handler : Nat
  instance_id : Nat
deriving DecidableEq

/-- The cache fields behind `Client`'s `@cached_property` members
(client.py lines 56-89): each starts empty and is filled on first access.
`pid_calls` counts invocations of `utils.get_pid_from_handle`, and
`next_instance_id` models allocation of fresh accessor objects. -/
structure ClientCaches where
  window_handle : Int
  hook_handler : Nat
  pid_cache : Option Int
  pid_calls : Nat
  stats_cache : Option Accessor
  body_cache : Option Accessor
  duel_cache : Option Accessor
  quest_cache : Option Accessor
  next_instance_id : Nat
deriving DecidableEq

/-- `Client.process_id` (client.py lines 56-61), a `cached_property`: on first
access it calls `utils.get_pid_from_handle(self.window_handle)` (the oracle
`get_pid_from_handle`; `utils` is not in src/) and caches the result; later
accesses return the cached value without recomputation. -/
def process_id (get_pid_from_handle : Int → Int) (s : ClientCaches) :
    Int × ClientCaches :=
  match s.pid_cache with
  | some v => (v, s)
  | none =>
      let v := get_pid_from_handle s.window_handle
      (v, { s with pid_cache := some v, pid_calls := s.pid_calls + 1 })

/-- `Client.stats` (client.py lines 63-68), a `cached_property`: on first access
it constructs `PlayerStats(self.hook_handler)` and caches the instance. -/
def stats (s : ClientCaches) : Accessor × ClientCaches :=
  match s.stats_cache with
  | some a => (a, s)
  | none =>
      let a : Accessor := ⟨s.hook_handler, s.next_instance_id⟩
      (a, { s with stats_cache := some a, next_instance_id := s.next_instance_id + 1 })

/-- `Client.body` (client.py lines 70-75), a `cached_property` constructing
`PlayerActorBody(self.hook_handler)` on first access. -/
def body (s : ClientCaches) : Accessor × ClientCaches :=
  match s.body_cache with
  | some a => (a, s)
  | none =>
      let a : Accessor := ⟨s.hook_handler, s.next_instance_id⟩
      (a, { s with body_cache := some a, next_instance_id := s.next_instance_id + 1 })

/-- `Client.duel` (client.py lines 77-82), a `cached_property` constructing
`PlayerDuel(self.hook_handler)` on first access. -/
def duel (s : ClientCaches) : Accessor × ClientCaches :=
  match s.duel_cache with
  | some a => (a, s)
  | none =>
      let a : Accessor := ⟨s.hook_handler, s.next_instance_id⟩
      (a, { s with duel_cache := some a, next_instance_id := s.next_instance_id + 1 })

/-- `Client.quest_position` (client.py lines 84-89), a `cached_property`
constructing `CurrentQuestPosition(self.hook_handler)` on first access. -/
def quest_position (s : ClientCaches) : Accessor × ClientCaches :=
  match s.quest_cache with
  | some a => (a, s)
  | none =>
      let a : Accessor := ⟨s.hook_handler, s.next_instance_id⟩
      (a, { s with quest_cache := some a, next_instance_id := s.next_instance_id + 1 })

/-- C8: `process_id` is computed at most once (a second access returns the same
value and changes nothing, and only the first can invoke the pid lookup), each
accessor (`stats`, `body`, `duel`, `quest_position`) is created lazily on first
access and cached, and a repeated access idempotently returns the very same
instance with no state change; a fresh accessor is built from the handle's own
hook handler, so two handles with distinct hook handlers never share one. -/
theorem cached_accessors_spec (get_pid_from_handle : Int → Int) (s : ClientCaches) :
    (process_id get_pid_from_handle (process_id get_pid_from_handle s).2)
      = ((process_id get_pid_from_handle s).1, (process_id get_pid_from_handle s).2)
    ∧ (process_id get_pid_from_handle s).2.pid_cache
        = some (process_id get_pid_from_handle s).1
    ∧ (process_id get_pid_from_handle s).2.pid_calls
        = s.pid_calls + (if s.pid_cache = none then 1 else 0)
    ∧ stats (stats s).2 = ((stats s).1, (stats s).2)
    ∧ (stats s).2.stats_cache = some (stats s).1
    ∧ body (body s).2 = ((body s).1, (body s).2)
    ∧ (body s).2.body_cache = some (body s).1
    ∧ duel (duel s).2 = ((duel s).1, (duel s).2)
    ∧ (duel s).2.duel_cache = some (duel s).1
    ∧ quest_position (quest_position s).2
        = ((quest_position s).1, (quest_position s).2)
    ∧ (quest_position s).2.quest_cache = some (quest_position s).1
    ∧ (s.stats_cache = none → (stats s).1.hook_handler = s.hook_handler)
    ∧ (∀ t : ClientCaches, s.stats_cache = none → t.stats_cache = none →
        s.hook_handler ≠ t.hook_handler → (stats s).1 ≠ (stats t).1) := by
  refine ⟨?_, ?_, ?_, ?_, ?_, ?_, ?_, ?_, ?_, ?_, ?_, ?_, ?_⟩
  · rcases h : s.pid_cache with _ | v <;> simp [process_id, h]
  · rcases h : s.pid_cache with _ | v <;> simp [process_id, h]
  · rcases h : s.pid_cache with _ | v <;> simp [process_id, h]
  · rcases h : s.stats_cache with _ | a <;> simp [stats, h]
  · rcases h : s.stats_cache with _ | a <;> simp [stats, h]
  · rcases h : s.body_cache with _ | a <;> simp [body, h]
  · rcases h : s.body_cache with _ | a <;> simp [body, h]
  · rcases h : s.duel_cache with _ | a <;> simp [duel, h]
  · rcases h : s.duel_cache with _ | a <;> simp [duel, h]
  · rcases h : s.quest_cache with _ | a <;> simp [quest_position, h]
  · rcases h : s.quest_cache with _ | a <;> simp [quest_position, h]
  · intro h
    simp [stats, h]
  · intro t hs ht hneq hcontra
    apply hneq
    have h1 := congrArg Accessor.hook_handler hcontra
    simpa [stats, hs, ht] using h1

/-- A freshly constructed handle's cache state (all `cached_property` caches
empty), used to instantiate the cached-accessor theorem. -/
def freshCaches (wh : Int) (hh : Nat) : ClientCaches :=
  ⟨wh, hh, none, 0, none, none, none, none, 0⟩

theorem cached_accessors_spec_witness :
    (Client.stats (freshCaches 1 10)).1 ≠ (Client.stats (freshCaches 2 20)).1 :=
  (cached_accessors_spec (fun w => w)
      (freshCaches 1 10)).2.2.2.2.2.2.2.2.2.2.2.2
    (freshCaches 2 20) rfl rfl (by decide)

/-!
### The click lock (client.py lines 161-172)

`click` wraps its body in `async with self.click_lock` (created on first use;
the `None` check and assignment contain no await point, so under asyncio's
cooperative scheduling both overlapping calls use the same lock).  We model two
overlapping `click` calls on the same handle as two threads interleaved by an
arbitrary scheduler.  Each thread runs: acquire the lock; `set_mouse_position`;
button-down send; optional sleep; button-up send; release.  An outcome oracle
lets the mouse step or the down-message send raise inside the critical section,
in which case `async with` still releases the lock and the remaining events are
skipped — exactly Python's context-manager semantics.
-/

/-- Lock-level events of one `click` call. -/
inductive LockEv
  | acq
  | mouse
  | down
  | sleepEv
  | up
  | rel
deriving DecidableEq

/-- How the critical-section body of one `click` call resolves: every step
succeeds, the `set_mouse_position` step raises, or the button-down message send
raises. -/
inductive Outcome
  | ok
  | failMouse
  | failDown
deriving DecidableEq

/-- Tag every event of a per-thread event list with the thread identifier. -/
def tagged (i : Bool) (evs : List LockEv) : List (Bool × LockEv) :=
  evs.map (fun e => (i, e))

/-- The events the critical-section body of one `click` call emits, by outcome:
on a mouse-step failure nothing beyond the acquire happened; on a down-send
failure the down send was attempted but no up follows; on success the full
down / optional-sleep / up sequence runs. -/
def bodyEvents (o : Outcome) (sl : Bool) : List LockEv :=
  match o with
  | Outcome.failMouse => []
  | Outcome.failDown => [LockEv.mouse, LockEv.down]
  | Outcome.ok =>
      [LockEv.mouse, LockEv.down] ++ (if sl then [LockEv.sleepEv] else []) ++ [LockEv.up]

/-- The complete event sequence of one finished `click` call: the lock is
acquired once before everything, released once after everything, on every
outcome. -/
def fullEvents (o : Outcome) (sl : Bool) (i : Bool) : List (Bool × LockEv) :=
  tagged i ((LockEv.acq :: bodyEvents o sl) ++ [LockEv.rel])

/-- State of two overlapping `click` calls: each thread's program counter
(0 before acquire; 1 mouse; 2 down; 3 sleep; 4 up; 5 release; 6 done),
the lock holder, and the global event trace. -/
structure ClickSys where
  pc0 : Nat
  pc1 : Nat
  click_lock : Option Bool
  trace : List (Bool × LockEv)
deriving DecidableEq

/-- One step of thread `i` with outcome `o` and sleep flag `sl`:
`none` when the thread is blocked on the lock or already done; otherwise the
new program counter, new lock state, and emitted events.  Failures jump to the
release point (pc 5), reflecting `async with`. -/
def threadStep (o : Outcome) (sl : Bool) (i : Bool) (pc : Nat) (lk : Option Bool) :
    Option (Nat × Option Bool × List (Bool × LockEv)) :=
  match pc with
  | 0 => match lk with
         | none => some (1, some i, tagged i [LockEv.acq])
         | some _ => none
  | 1 => match o with
         | Outcome.failMouse => some (5, some i, [])
         | _ => some (2, some i, tagged i [LockEv.mouse])
  | 2 => match o with
         | Outcome.failDown => some (5, some i, tagged i [LockEv.down])
         | _ => some (3, some i, tagged i [LockEv.down])
  | 3 => some (4, some i, if sl then tagged i [LockEv.sleepEv] else [])
  | 4 => some (5, some i, tagged i [LockEv.up])
  | 5 => some (6, none, tagged i [LockEv.rel])
  | _ => none

/-- One scheduler step: run thread `j` if it is enabled, otherwise do nothing. -/
def sysStep (o : Bool → Outcome) (sl : Bool → Bool) (j : Bool) (s : ClickSys) :
    ClickSys :=
  match threadStep (o j) (sl j) j (if j then s.pc1 else s.pc0) s.click_lock with
  | none => s
  | some (pc2, lk2, evs) =>
      { pc0 := if j then s.pc0 else pc2
        pc1 := if j then pc2 else s.pc1
        click_lock := lk2
        trace := s.trace ++ evs }

/-- Run an arbitrary finite schedule. -/
def runSched (o : Bool → Outcome) (sl : Bool → Bool) :
    List Bool → ClickSys → ClickSys
  | [], s => s
  | j :: rest, s => runSched o sl rest (sysStep o sl j s)

/-- Both calls at their entry point, lock free, nothing observed. -/
def initSys : ClickSys := ⟨0, 0, none, []⟩

/-- The events thread `i` has emitted so far, as a function of its program
counter (its path being determined by the outcome). -/
def emitted (o : Outcome) (sl : Bool) (i : Bool) : Nat → List (Bool × LockEv)
  | 0 => []
  | 1 => tagged i [LockEv.acq]
  | 2 => tagged i [LockEv.acq, LockEv.mouse]
  | 3 => tagged i [LockEv.acq, LockEv.mouse, LockEv.down]
  | 4 => tagged i ([LockEv.acq, LockEv.mouse, LockEv.down]
          ++ (if sl then [LockEv.sleepEv] else []))
  | 5 => tagged i (LockEv.acq :: bodyEvents o sl)
  | _ => fullEvents o sl i

/-- Program counters only reachable under the matching outcome. -/
def pcValid (o : Outcome) (pc : Nat) : Prop :=
  (pc = 2 → o ≠ Outcome.failMouse) ∧ ((pc = 3 ∨ pc = 4) → o = Outcome.ok)

/-- Reachability invariant: the lock holder is exactly the thread inside its
critical section, the other thread has then either not started or already
finished, and the trace is the completed calls' blocks followed by the current
holder's partial block — i.e. the trace is always serialized. -/
def Inv (o : Bool → Outcome) (sl : Bool → Bool) (s : ClickSys) : Prop :=
  pcValid (o false) s.pc0 ∧ pcValid (o true) s.pc1 ∧
  match s.click_lock with
  | some i =>
      (1 ≤ (if i then s.pc1 else s.pc0) ∧ (if i then s.pc1 else s.pc0) ≤ 5)
      ∧ ((if i then s.pc0 else s.pc1) = 0 ∨ (if i then s.pc0 else s.pc1) = 6)
      ∧ s.trace = (if (if i then s.pc0 else s.pc1) = 6
                    then fullEvents (o (!i)) (sl (!i)) (!i) else [])
                  ++ emitted (o i) (sl i) i (if i then s.pc1 else s.pc0)
  | none =>
      (s.pc0 = 0 ∨ s.pc0 = 6) ∧ (s.pc1 = 0 ∨ s.pc1 = 6)
      ∧ (s.trace = (if s.pc0 = 6 then fullEvents (o false) (sl false) false else [])
                   ++ (if s.pc1 = 6 then fullEvents (o true) (sl true) true else [])
         ∨ s.trace = (if s.pc1 = 6 then fullEvents (o true) (sl true) true else [])
                   ++ (if s.pc0 = 6 then fullEvents (o false) (sl false) false else []))

theorem threadStep_emitted (o : Outcome) (sl : Bool) (i : Bool) (pc pc2 : Nat)
    (lk2 : Option Bool) (evs : List (Bool × LockEv))
    (h1 : 1 ≤ pc) (h5 : pc ≤ 5) (hval : pcValid o pc)
    (hstep : threadStep o sl i pc (some i) = some (pc2, lk2, evs)) :
    emitted o sl i pc ++ evs = emitted o sl i pc2
    ∧ pcValid o pc2
    ∧ ((pc2 = 6 ∧ lk2 = none) ∨ (1 ≤ pc2 ∧ pc2 ≤ 5 ∧ lk2 = some i)) := by
  interval_cases pc
  · cases o with
    | ok =>
        simp only [threadStep, Option.some.injEq, Prod.mk.injEq] at hstep
        obtain ⟨rfl, rfl, rfl⟩ := hstep
        exact ⟨by simp [emitted, tagged], by simp [pcValid], Or.inr ⟨by decide, by decide, rfl⟩⟩
    | failMouse =>
        simp only [threadStep, Option.some.injEq, Prod.mk.injEq] at hstep
        obtain ⟨rfl, rfl, rfl⟩ := hstep
        exact ⟨by simp [emitted, tagged, bodyEvents], by simp [pcValid],
          Or.inr ⟨by decide, by decide, rfl⟩⟩
    | failDown =>
        simp only [threadStep, Option.some.injEq, Prod.mk.injEq] at hstep
        obtain ⟨rfl, rfl, rfl⟩ := hstep
        exact ⟨by simp [emitted, tagged], by simp [pcValid], Or.inr ⟨by decide, by decide, rfl⟩⟩
  · cases o with
    | ok =>
        simp only [threadStep, Option.some.injEq, Prod.mk.injEq] at hstep
        obtain ⟨rfl, rfl, rfl⟩ := hstep
        exact ⟨by simp [emitted, tagged], by simp [pcValid], Or.inr ⟨by decide, by decide, rfl⟩⟩
    | failMouse => exact absurd rfl (hval.1 rfl)
    | failDown =>
        simp only [threadStep, Option.some.injEq, Prod.mk.injEq] at hstep
        obtain ⟨rfl, rfl, rfl⟩ := hstep
        exact ⟨by simp [emitted, tagged, bodyEvents], by simp [pcValid],
          Or.inr ⟨by decide, by decide, rfl⟩⟩
  · have ho : o = Outcome.ok := hval.2 (Or.inl rfl)
    subst ho
    simp only [threadStep, Option.some.injEq, Prod.mk.injEq] at hstep
    obtain ⟨rfl, rfl, rfl⟩ := hstep
    refine ⟨?_, by simp [pcValid], Or.inr ⟨by decide, by decide, rfl⟩⟩
    cases sl <;> simp [emitted, tagged]
  · have ho : o = Outcome.ok := hval.2 (Or.inr rfl)
    subst ho
    simp only [threadStep, Option.some.injEq, Prod.mk.injEq] at hstep
    obtain ⟨rfl, rfl, rfl⟩ := hstep
    refine ⟨?_, by simp [pcValid], Or.inr ⟨by decide, by decide, rfl⟩⟩
    cases sl <;> simp [emitted, tagged, bodyEvents]
  · simp only [threadStep, Option.some.injEq, Prod.mk.injEq] at hstep
    obtain ⟨rfl, rfl, rfl⟩ := hstep
    refine ⟨?_, by simp [pcValid], Or.inl ⟨rfl, rfl⟩⟩
    cases o <;> cases sl <;> simp [emitted, tagged, bodyEvents, fullEvents]

theorem emitted_done (o : Outcome) (sl : Bool) (i : Bool) :
    emitted o sl i 6 = fullEvents o sl i := rfl

theorem inv_sysStep (o : Bool → Outcome) (sl : Bool → Bool) (j : Bool) (s : ClickSys)
    (h : Inv o sl s) : Inv o sl (sysStep o sl j s) := by
  rcases s with ⟨pc0, pc1, lk, tr⟩
  obtain ⟨hv0, hv1, hlk⟩ := h
  dsimp only at hv0 hv1
  rcases lk with _ | i
  · obtain ⟨hp0, hp1, htr⟩ := hlk
    dsimp only at hp0 hp1 htr
    cases j
    · rcases hp0 with h0 | h0 <;> subst h0
      · refine ⟨by simp [pcValid, sysStep, threadStep], hv1,
          by simp [sysStep, threadStep], hp1, ?_⟩
        show tr ++ tagged false [LockEv.acq]
            = (if pc1 = 6 then fullEvents (o true) (sl true) true else [])
              ++ emitted (o false) (sl false) false 1
        rcases htr with htr | htr <;> rw [htr] <;> simp [emitted]
      · exact ⟨hv0, hv1, Or.inr rfl, hp1, htr⟩
    · rcases hp1 with h1 | h1 <;> subst h1
      · refine ⟨hv0, by simp [pcValid, sysStep, threadStep],
          by simp [sysStep, threadStep], hp0, ?_⟩
        show tr ++ tagged true [LockEv.acq]
            = (if pc0 = 6 then fullEvents (o false) (sl false) false else [])
              ++ emitted (o true) (sl true) true 1
        rcases htr with htr | htr <;> rw [htr] <;> simp [emitted]
      · exact ⟨hv0, hv1, hp0, Or.inr rfl, htr⟩
  · obtain ⟨⟨hge, hle⟩, hother, htr⟩ := hlk
    cases j
    · cases i
      · -- holder thread 0 steps
        have hge2 : 1 ≤ pc0 := hge
        have hle2 : pc0 ≤ 5 := hle
        have hother2 : pc1 = 0 ∨ pc1 = 6 := hother
        have htr2 : tr = (if pc1 = 6 then fullEvents (o true) (sl true) true else [])
            ++ emitted (o false) (sl false) false pc0 := htr
        rcases hstep : threadStep (o false) (sl false) false pc0 (some false)
          with _ | ⟨pc2, lk2, evs⟩
        · have hred : sysStep o sl false ⟨pc0, pc1, some false, tr⟩
              = ⟨pc0, pc1, some false, tr⟩ := by
            dsimp only [sysStep]
            rw [show (if false = true then pc1 else pc0) = pc0 from rfl, hstep]
          rw [hred]
          exact ⟨hv0, hv1, ⟨hge, hle⟩, hother, htr⟩
        · obtain ⟨hE, hval2, hcase⟩ :=
            threadStep_emitted (o false) (sl false) false pc0 pc2 lk2 evs hge2 hle2 hv0 hstep
          have hred : sysStep o sl false ⟨pc0, pc1, some false, tr⟩
              = ⟨pc2, pc1, lk2, tr ++ evs⟩ := by
            dsimp only [sysStep]
            rw [show (if false = true then pc1 else pc0) = pc0 from rfl, hstep]
            rfl
          rw [hred]
          rcases hcase with ⟨h6, hnone⟩ | ⟨hge3, hle3, hsome⟩
          · subst h6; subst hnone
            refine ⟨hval2, hv1, Or.inr rfl, hother2, ?_⟩
            rcases hother2 with hh | hh <;> subst hh
            · left
              simp [htr2, hE, emitted_done]
            · right
              simp [htr2, hE, emitted_done]
          · subst hsome
            refine ⟨hval2, hv1, ⟨by simpa using hge3, by simpa using hle3⟩, hother2, ?_⟩
            show tr ++ evs
                = (if pc1 = 6 then fullEvents (o true) (sl true) true else [])
                  ++ emitted (o false) (sl false) false pc2
            rw [htr2, List.append_assoc, hE]
      · -- thread 0 blocked while thread 1 holds the lock
        have hother2 : pc0 = 0 ∨ pc0 = 6 := hother
        rcases hother2 with hh | hh <;> subst hh
        · exact ⟨hv0, hv1, ⟨hge, hle⟩, hother, htr⟩
        · exact ⟨hv0, hv1, ⟨hge, hle⟩, hother, htr⟩
    · cases i
      · -- thread 1 blocked while thread 0 holds the lock
        have hother2 : pc1 = 0 ∨ pc1 = 6 := hother
        rcases hother2 with hh | hh <;> subst hh
        · exact ⟨hv0, hv1, ⟨hge, hle⟩, hother, htr⟩
        · exact ⟨hv0, hv1, ⟨hge, hle⟩, hother, htr⟩
      · -- holder thread 1 steps
        have hge2 : 1 ≤ pc1 := hge
        have hle2 : pc1 ≤ 5 := hle
        have hother2 : pc0 = 0 ∨ pc0 = 6 := hother
        have htr2 : tr = (if pc0 = 6 then fullEvents (o false) (sl false) false else [])
            ++ emitted (o true) (sl true) true pc1 := htr
        rcases hstep : threadStep (o true) (sl true) true pc1 (some true)
          with _ | ⟨pc2, lk2, evs⟩
        · have hred : sysStep o sl true ⟨pc0, pc1, some true, tr⟩
              = ⟨pc0, pc1, some true, tr⟩ := by
            dsimp only [sysStep]
            rw [show (if true = true then pc1 else pc0) = pc1 from rfl, hstep]
          rw [hred]
          exact ⟨hv0, hv1, ⟨hge, hle⟩, hother, htr⟩
        · obtain ⟨hE, hval2, hcase⟩ :=
            threadStep_emitted (o true) (sl true) true pc1 pc2 lk2 evs hge2 hle2 hv1 hstep
          have hred : sysStep o sl true ⟨pc0, pc1, some true, tr⟩
              = ⟨pc0, pc2, lk2, tr ++ evs⟩ := by
            dsimp only [sysStep]
            rw [show (if true = true then pc1 else pc0) = pc1 from rfl, hstep]
            rfl
          rw [hred]
          rcases hcase with ⟨h6, hnone⟩ | ⟨hge3, hle3, hsome⟩
          · subst h6; subst hnone
            refine ⟨hv0, hval2, hother2, Or.inr rfl, ?_⟩
            rcases hother2 with hh | hh <;> subst hh
            · left
              simp [htr2, hE, emitted_done]
            · left
              simp [htr2, hE, emitted_done]
          · subst hsome
            refine ⟨hv0, hval2, ⟨by simpa using hge3, by simpa using hle3⟩, hother2, ?_⟩
            show tr ++ evs
                = (if pc0 = 6 then fullEvents (o false) (sl false) false else [])
                  ++ emitted (o true) (sl true) true pc2
            rw [htr2, List.append_assoc, hE]
theorem inv_runSched (o : Bool → Outcome) (sl : Bool → Bool) (sched : List Bool)
    (s : ClickSys) (h : Inv o sl s) : Inv o sl (runSched o sl sched s) := by
  induction sched generalizing s with
  | nil => exact h
  | cons j rest ih => exact ih _ (inv_sysStep o sl j s h)

theorem inv_initSys (o : Bool → Outcome) (sl : Bool → Bool) : Inv o sl initSys :=
  ⟨by simp [pcValid, initSys], by simp [pcValid, initSys], Or.inl rfl, Or.inl rfl,
    Or.inl (by simp [initSys])⟩

/-- The subsequence of events belonging to call `i`, untagged. -/
def projT (i : Bool) (tr : List (Bool × LockEv)) : List LockEv :=
  (tr.filter (fun p => p.1 == i)).map Prod.snd

theorem projT_append (i : Bool) (a b : List (Bool × LockEv)) :
    projT i (a ++ b) = projT i a ++ projT i b := by
  simp [projT]

theorem projT_tagged_same (i : Bool) (evs : List LockEv) :
    projT i (tagged i evs) = evs := by
  induction evs with
  | nil => rfl
  | cons e rest ih =>
      simp only [projT, tagged, List.map_cons, List.filter_cons, beq_self_eq_true,
        if_true] at ih ⊢
      simp_all

theorem projT_tagged_other (i j : Bool) (hij : i ≠ j) (evs : List LockEv) :
    projT i (tagged j evs) = [] := by
  induction evs with
  | nil => rfl
  | cons e rest ih =>
      cases i <;> cases j <;> simp_all [projT, tagged, List.filter_cons]

/-- The button events of one call by outcome: a failed mouse step sends
neither button message, a failed down send leaves the down without an up,
success gives the complete down/up pair. -/
def downUps (o : Outcome) : List LockEv :=
  match o with
  | Outcome.failMouse => []
  | Outcome.failDown => [LockEv.down]
  | Outcome.ok => [LockEv.down, LockEv.up]

def isDownUp (e : Bool × LockEv) : Bool :=
  e.2 == LockEv.down || e.2 == LockEv.up

theorem filter_downUp_full (o : Outcome) (sl : Bool) (i : Bool) :
    (fullEvents o sl i).filter isDownUp = tagged i (downUps o) := by
  cases o <;> cases sl <;> rfl

/-- C1: for two overlapping `click` calls on the same handle, under any
scheduler interleaving and any failure outcome of the critical sections
(including a failing message send), once both calls have finished:
the whole trace is one call's complete block followed by the other's, so the
critical sections never overlap; each call's own event sequence is exactly one
lock acquire first, then its body, then exactly one lock release — the lock is
acquired once before the first input event and released once on every exit
path; and the observable button-message sequence is one call's complete
down/up group before the other's, never the interleaving
(down₁, down₂, up₁, up₂). -/
theorem click_lock_serializes (o : Bool → Outcome) (sl : Bool → Bool)
    (sched : List Bool)
    (h0 : (runSched o sl sched initSys).pc0 = 6)
    (h1 : (runSched o sl sched initSys).pc1 = 6) :
    ((runSched o sl sched initSys).trace
        = fullEvents (o false) (sl false) false ++ fullEvents (o true) (sl true) true
      ∨ (runSched o sl sched initSys).trace
        = fullEvents (o true) (sl true) true ++ fullEvents (o false) (sl false) false)
    ∧ (∀ i : Bool, projT i (runSched o sl sched initSys).trace
        = LockEv.acq :: (bodyEvents (o i) (sl i) ++ [LockEv.rel]))
    ∧ ((runSched o sl sched initSys).trace.filter isDownUp
        = tagged false (downUps (o false)) ++ tagged true (downUps (o true))
      ∨ (runSched o sl sched initSys).trace.filter isDownUp
        = tagged true (downUps (o true)) ++ tagged false (downUps (o false))) := by
  obtain ⟨hv0, hv1, hlk⟩ := inv_runSched o sl sched initSys (inv_initSys o sl)
  rcases hfin : (runSched o sl sched initSys).click_lock with _ | i
  · rw [hfin] at hlk
    obtain ⟨hp0st, hp1st, htr⟩ := hlk
    rw [h0, h1] at htr
    simp only [if_pos rfl] at htr
    have hmain : (runSched o sl sched initSys).trace
        = fullEvents (o false) (sl false) false ++ fullEvents (o true) (sl true) true
      ∨ (runSched o sl sched initSys).trace
        = fullEvents (o true) (sl true) true ++ fullEvents (o false) (sl false) false := htr
    refine ⟨hmain, ?_, ?_⟩
    · intro i
      rcases hmain with hm | hm <;> rw [hm] <;> cases i <;>
        simp [projT_append, fullEvents, projT_tagged_same, projT_tagged_other,
          List.append_assoc]
    · rcases hmain with hm | hm <;> rw [hm] <;>
        rw [List.filter_append, filter_downUp_full, filter_downUp_full]
      · exact Or.inl rfl
      · exact Or.inr rfl
  · rw [hfin] at hlk
    obtain ⟨⟨hge, hle⟩, hother, htr⟩ := hlk
    exfalso
    cases i
    · rw [h0] at hle
      exact absurd hle (by norm_num)
    · rw [h1] at hle
      exact absurd hle (by norm_num)

/-- A schedule that runs the first call to completion, then the second. -/
def schedDemo : List Bool :=
  [false, false, false, false, false, false, true, true, true, true, true, true]

theorem click_lock_serializes_witness :
    (runSched (fun _ => Outcome.ok) (fun _ => false) schedDemo initSys).trace
      = fullEvents Outcome.ok false false ++ fullEvents Outcome.ok false true
    ∨ (runSched (fun _ => Outcome.ok) (fun _ => false) schedDemo initSys).trace
      = fullEvents Outcome.ok false true ++ fullEvents Outcome.ok false false :=
  (click_lock_serializes (fun _ => Outcome.ok) (fun _ => false) schedDemo
    (by decide) (by decide)).1

end Client
